import Mathlib

/-!
Verification of the CTA vehicle-tracking aggregation layer
(`src/backend/service.go`) against its natural-language specification.

The Go code is shallowly embedded: pure helpers become Lean functions,
the fallible pipeline stages become `Except`-valued functions, the Go map
used by the statistics aggregator becomes an association list whose keys
are kept unique, and machine integers become `Nat`/`Int` (the counters in
`routeStats` only ever increase by one, far from any overflow, and
`strconv.Atoi`'s int64 range check is modelled explicitly).
All definitions are computable and reduce in the kernel, so concrete
claims can be settled by `decide`.
-/

/-- Embedded from `service.go` (type `ctaError`): one upstream error
envelope entry, carrying a message string. -/
structure ctaError where
  Msg : String
deriving DecidableEq

/-- Embedded from Go's `strings.ToLower` restricted to its ASCII action
(mirrors the byte mapping `'A'..'Z' ↦ 'a'..'z'`; the phrases the service
compares against are ASCII). -/
def lowerChar (c : Char) : Char :=
  if 65 ≤ c.toNat ∧ c.toNat ≤ 90 then Char.ofNat (c.toNat + 32) else c

/-- Lowercasing of a whole string, character by character. -/
def lowerStr (s : String) : String :=
  ⟨s.data.map lowerChar⟩

/-- Embedded prefix test on character lists (used to model
`strings.Contains`). -/
def prefixOf : List Char → List Char → Bool
  | [], _ => true
  | _ :: _, [] => false
  | a :: as, b :: bs => a == b && prefixOf as bs

/-- Embedded from Go's `strings.Contains sub`: some suffix of the
haystack starts with the needle. -/
def containsSub (hay needle : List Char) : Bool :=
  match hay with
  | [] => needle.isEmpty
  | _ :: t => prefixOf needle hay || containsSub t needle

/-- String-level wrapper for `containsSub`, modelling
`strings.Contains s sub`. -/
def strContains (s sub : String) : Bool :=
  containsSub s.data sub.data

/-- Benign-message test factored out of the loop body of `isNoDataError`
(`service.go` lines 168-172): the lowercased message contains the phrase
"no data found" or the phrase "no service scheduled". -/
def benignMsg (e : ctaError) : Bool :=
  let msg := lowerStr e.Msg
  strContains msg "no data found" || strContains msg "no service scheduled"

/-- Embedded from `service.go` lines 167-175 (`isNoDataError`): the loop
returns `true` as soon as one message matches, and falls through to
`false` otherwise, so it is `List.any` of the per-message test. -/
def isNoDataError (ctaErrors : List ctaError) : Bool :=
  ctaErrors.any benignMsg

/-- Embedded from Go's `strconv.Atoi` digit phase: a nonempty list of
ASCII digits, read as a base-10 natural number. -/
def parseDigits (cs : List Char) : Option Nat :=
  match cs with
  | [] => none
  | _ :: _ =>
    if cs.all (fun c => c.isDigit) then
      some (cs.foldl (fun acc c => acc * 10 + (c.toNat - 48)) 0)
    else
      none

/-- Embedded from Go's `strconv.Atoi` (64-bit `int`): an optional sign
followed by at least one digit, rejected when the value falls outside
the int64 range, exactly as `ParseInt(s, 10, 0)` reports a range error. -/
def atoi (s : String) : Option Int :=
  let inRange : Int → Option Int := fun v =>
    if v < -(2 ^ 63) ∨ 2 ^ 63 - 1 < v then none else some v
  match s.data with
  | '-' :: rest => (parseDigits rest).bind (fun m => inRange (-(m : Int)))
  | '+' :: rest => (parseDigits rest).bind (fun m => inRange (m : Int))
  | cs => (parseDigits cs).bind (fun m => inRange (m : Int))

/-- Embedded from `service.go` lines 352-364 (`isNorthOrEastbound`):
parse the heading, default to south/west on failure, reduce with Go's
truncating `%` (that is `Int.tmod`), add 360 to a negative remainder,
and bucket `[316, 360) ∪ [0, 135]` as north/east. -/
def isNorthOrEastbound (heading : String) : Bool :=
  match atoi heading with
  | none => false
  | some n =>
    let hdg := Int.tmod n 360
    let hdg := if hdg < 0 then hdg + 360 else hdg
    decide (316 ≤ hdg) || decide (hdg ≤ 135)

/-- Go's truncating remainder followed by the negative correction agrees
with the Euclidean remainder `%` on `Int`. -/
theorem tmod_normalize (n : Int) :
    (if Int.tmod n 360 < 0 then Int.tmod n 360 + 360 else Int.tmod n 360) = n % 360 := by
  cases n with
  | ofNat m =>
    have h : Int.tmod (Int.ofNat m) 360 = ((m % 360 : Nat) : Int) := rfl
    rw [h]
    have h2 : Int.ofNat m = ((m : Nat) : Int) := rfl
    rw [h2]
    split <;> omega
  | negSucc m =>
    have h : Int.tmod (Int.negSucc m) 360 = -((((m + 1) % 360 : Nat)) : Int) := rfl
    rw [h, Int.negSucc_eq]
    split <;> omega

/-- On a heading that parses to `n`, the classifier is the two-sided
range test applied to `n % 360`. -/
theorem isNorthOrEastbound_of_parse (s : String) (n : Int) (h : atoi s = some n) :
    isNorthOrEastbound s = (decide (316 ≤ n % 360) || decide (n % 360 ≤ 135)) := by
  unfold isNorthOrEastbound
  rw [h]
  simp only [← tmod_normalize n]

/-- C1 counterexample: the claim says `isNoDataError` returns true only
when EVERY message is benign, but the Go loop returns true as soon as
ONE message matches: on a list mixing a benign "no data found" message
with "Invalid API key" (not benign) it still returns true. -/
theorem isNoDataError_not_every_counterexample :
    isNoDataError [⟨"No data found for parameter"⟩, ⟨"Invalid API key"⟩] = true
    ∧ benignMsg ⟨"Invalid API key"⟩ = false := by
  decide

/-- C1 (amended): `isNoDataError` returns true iff AT LEAST ONE error
message, compared case-insensitively, contains the phrase "no data
found" or the phrase "no service scheduled"; for the empty error list it
returns false, and the spec's single-message examples behave as
documented. -/
theorem isNoDataError_true_iff_exists_benign (errs : List ctaError) :
    (isNoDataError errs = true ↔ ∃ e ∈ errs, benignMsg e = true)
    ∧ isNoDataError [] = false
    ∧ isNoDataError [⟨"No data found for parameter"⟩] = true
    ∧ isNoDataError [⟨"Invalid API key"⟩] = false := by
  refine ⟨?_, by decide, by decide, by decide⟩
  simp [isNoDataError, List.any_eq_true]

/-- Concrete instantiation of the amended C1 theorem. -/
theorem isNoDataError_true_iff_exists_benign_witness :
    isNoDataError [⟨"no service scheduled today"⟩] = true :=
  (isNoDataError_true_iff_exists_benign [⟨"no service scheduled today"⟩]).1.mpr
    ⟨⟨"no service scheduled today"⟩, by decide, by decide⟩

/-- C4: on every heading string that parses as an integer `n` (negative
values included), the classifier answers north/east iff `n % 360` lies in
`[316, 360) ∪ [0, 135]`, answers south/west iff it lies in `[136, 315]`,
and the answer depends only on `n % 360`. -/
theorem isNorthOrEastbound_mod360 (s : String) (n : Int) (h : atoi s = some n) :
    (isNorthOrEastbound s = true ↔
      (316 ≤ n % 360 ∧ n % 360 < 360) ∨ (0 ≤ n % 360 ∧ n % 360 ≤ 135))
    ∧ (isNorthOrEastbound s = false ↔ (136 ≤ n % 360 ∧ n % 360 ≤ 315))
    ∧ (∀ s2 n2, atoi s2 = some n2 → n2 % 360 = n % 360 →
        isNorthOrEastbound s2 = isNorthOrEastbound s) := by
  have hb : 0 ≤ n % 360 := Int.emod_nonneg n (by decide)
  have hub : n % 360 < 360 := Int.emod_lt_of_pos n (by decide)
  rw [isNorthOrEastbound_of_parse s n h]
  refine ⟨?_, ?_, ?_⟩
  · simp only [Bool.or_eq_true, decide_eq_true_eq]
    omega
  · simp only [Bool.or_eq_false_iff, decide_eq_false_iff_not, not_le]
    omega
  · intro s2 n2 h2 hmod
    rw [isNorthOrEastbound_of_parse s2 n2 h2, hmod]

/-- Concrete instantiation of C4: `classify "45" = classify "405" =
classify "-315"`, and the common value is north/east. -/
theorem isNorthOrEastbound_mod360_witness :
    atoi "45" = some 45
    ∧ isNorthOrEastbound "45" = isNorthOrEastbound "405"
    ∧ isNorthOrEastbound "405" = isNorthOrEastbound "-315"
    ∧ isNorthOrEastbound "45" = true := by
  refine ⟨by decide, ?_, ?_, ?_⟩
  · exact ((isNorthOrEastbound_mod360 "45" 45 (by decide)).2.2 "405" 405
      (by decide) (by decide)).symm
  · exact ((isNorthOrEastbound_mod360 "405" 405 (by decide)).2.2 "-315" (-315)
      (by decide) (by decide)).symm
  · exact (isNorthOrEastbound_mod360 "45" 45 (by decide)).1.mpr (by decide)

/-- C8: every heading string that does not parse as an integer is
deterministically classified south/west (the classifier returns `false`
and never signals an error). -/
theorem isNorthOrEastbound_malformed (s : String) (h : atoi s = none) :
    isNorthOrEastbound s = false := by
  unfold isNorthOrEastbound
  rw [h]

/-- Concrete instantiation of C8 on the malformed heading "abc". -/
theorem isNorthOrEastbound_malformed_witness :
    atoi "abc" = none ∧ isNorthOrEastbound "abc" = false :=
  ⟨by decide, isNorthOrEastbound_malformed "abc" (by decide)⟩

/-- Embedded from `service.go` (type `ctaRoute`): a decoded upstream
route entry. -/
structure ctaRoute where
  Rt : String
  Rtnm : String
  Rtclr : String
  Rtdd : String
deriving DecidableEq

/-- Embedded from `service.go` (type `route`): the service-level route
record returned by `GetRoutes`. -/
structure route where
  RouteNumber : String
  RouteName : String
  RouteColor : String
  Rtdd : String
deriving DecidableEq

/-- Embedded from `service.go` (type `vehicle`): the service-level
vehicle record; the `flexibleString` upstream fields are already
normalized to strings at this layer. -/
structure vehicle where
  VehicleID : String
  Timestamp : String
  Latitude : String
  Longitude : String
  Heading : String
  PatternID : String
  PatternDistance : String
  Route : String
  Destination : String
  Delayed : Bool
  TablockID : String
  TripID : String
  OriginTripNo : String
  Zone : String
deriving DecidableEq

/-- Embedded from `service.go` (type `apiError`): status code and
message (the diagnostic `payload` field, an opaque `interface{}` echo of
the decoded response, is not modelled; no claim inspects it). -/
structure apiError where
  status : Nat
  message : String
deriving DecidableEq

deriving instance DecidableEq for Except

/-- Embedded from `service.go` lines 210-223: once the routes response
is decoded, any nonempty error array is returned to the caller as a 502
`apiError`; otherwise every `ctaRoute` is mapped to a `route`. -/
def getRoutesFromResponse (errors : List ctaError) (ctaRoutes : List ctaRoute) :
    Except apiError (List route) :=
  if errors.length > 0 then
    .error ⟨502, "CTA API returned error"⟩
  else
    .ok (ctaRoutes.map (fun r => ⟨r.Rt, r.Rtnm, r.Rtclr, r.Rtdd⟩))

/-- Embedded from `service.go` (type `ctaVehicle`): a decoded upstream
vehicle entry (each `flexibleString` field modelled as the string it
normalizes to). -/
structure ctaVehicle where
  Vid : String
  Tmstmp : String
  Lat : String
  Lon : String
  Hdg : String
  Pid : String
  Pdist : String
  Rt : String
  Des : String
  Dly : Bool
  Tablockid : String
  Tatripid : String
  Origtatripno : String
  Zone : String
deriving DecidableEq

/-- Embedded from `service.go` lines 317-335: field-for-field conversion
of a decoded upstream vehicle into the service-level record. -/
def toVehicle (v : ctaVehicle) : vehicle :=
  ⟨v.Vid, v.Tmstmp, v.Lat, v.Lon, v.Hdg, v.Pid, v.Pdist, v.Rt, v.Des,
    v.Dly, v.Tablockid, v.Tatripid, v.Origtatripno, v.Zone⟩

/-- Embedded from `service.go` lines 305-335: once the vehicles response
is decoded, a response with zero vehicles and a nonempty error array is
absorbed into an empty result when `isNoDataError` accepts the errors
and is otherwise a 502 `apiError`; any response carrying vehicles is
fully successful. -/
def getVehiclesFromResponse (errors : List ctaError) (ctaVehicles : List ctaVehicle) :
    Except apiError (List vehicle) :=
  if ctaVehicles.length = 0 ∧ errors.length > 0 then
    if isNoDataError errors then
      .ok []
    else
      .error ⟨502, "CTA API returned error"⟩
  else
    .ok (ctaVehicles.map toVehicle)

/-- Embedded from the batching loop of `GetAllVehicles` (`service.go`
lines 248-254): the consecutive slices `routeIDs[i:min(i+10, len)]` for
`i = 0, 10, 20, ...` are exactly the chunks peeled off ten at a time.
The ten-deep pattern keeps the recursion structural. -/
def batches : List String → List (List String)
  | [] => []
  | a1 :: a2 :: a3 :: a4 :: a5 :: a6 :: a7 :: a8 :: a9 :: a10 :: rest =>
    [a1, a2, a3, a4, a5, a6, a7, a8, a9, a10] :: batches rest
  | l => [l]

/-- Embedded from the body of the batching loop (`service.go` lines
254-260): fetch each batch in order, abort on the first error
(discarding everything accumulated so far), and concatenate the
per-batch vehicle lists. -/
def runBatches (fetchVehicles : List String → Except apiError (List vehicle)) :
    List (List String) → Except apiError (List vehicle)
  | [] => .ok []
  | b :: bs =>
    match fetchVehicles b with
    | .error e => .error e
    | .ok vs =>
      match runBatches fetchVehicles bs with
      | .error e => .error e
      | .ok rest => .ok (vs ++ rest)

/-- Embedded from `service.go` lines 247-263: the whole batched fetch
over a route-identifier list (the loop with `batchSize = 10`). -/
def getAllVehiclesFrom (fetchVehicles : List String → Except apiError (List vehicle))
    (routeIDs : List String) : Except apiError (List vehicle) :=
  runBatches fetchVehicles (batches routeIDs)

/-- Peeling equation: on a nonempty list `batches` takes the first ten
identifiers and recurses on the rest, exactly like the Go loop slice
`routeIDs[i:end]`. -/
theorem batches_cons (ids : List String) (h : ids ≠ []) :
    batches ids = ids.take 10 :: batches (ids.drop 10) := by
  match ids with
  | [] => exact absurd rfl h
  | [a1] => rfl
  | [a1, a2] => rfl
  | [a1, a2, a3] => rfl
  | [a1, a2, a3, a4] => rfl
  | [a1, a2, a3, a4, a5] => rfl
  | [a1, a2, a3, a4, a5, a6] => rfl
  | [a1, a2, a3, a4, a5, a6, a7] => rfl
  | [a1, a2, a3, a4, a5, a6, a7, a8] => rfl
  | [a1, a2, a3, a4, a5, a6, a7, a8, a9] => rfl
  | a1 :: a2 :: a3 :: a4 :: a5 :: a6 :: a7 :: a8 :: a9 :: a10 :: rest => rfl

/-- Shape facts about the batching: the chunks concatenate back to the
input, there are exactly `⌈L/10⌉` of them, and each is nonempty with at
most ten identifiers. -/
theorem batches_facts :
    ∀ (n : Nat) (ids : List String), ids.length ≤ n →
      (batches ids).flatten = ids
      ∧ (batches ids).length = (ids.length + 9) / 10
      ∧ ∀ b ∈ batches ids, b ≠ [] ∧ b.length ≤ 10 := by
  intro n
  induction n with
  | zero =>
    intro ids hlen
    have h : ids = [] := List.eq_nil_of_length_eq_zero (Nat.le_zero.mp hlen)
    subst h
    refine ⟨rfl, rfl, ?_⟩
    intro b hb
    simp [batches] at hb
  | succ n ih =>
    intro ids hlen
    by_cases h : ids = []
    · subst h
      refine ⟨rfl, rfl, ?_⟩
      intro b hb
      simp [batches] at hb
    · have hpos : 0 < ids.length := List.length_pos.mpr h
      have hdrop : (ids.drop 10).length ≤ n := by
        rw [List.length_drop]
        omega
      obtain ⟨ihj, ihl, ihm⟩ := ih (ids.drop 10) hdrop
      rw [batches_cons ids h]
      refine ⟨?_, ?_, ?_⟩
      · simp [ihj]
      · simp only [List.length_cons, ihl, List.length_drop]
        omega
      · intro b hb
        rcases List.mem_cons.mp hb with hb | hb
        · subst hb
          constructor
          · simp only [ne_eq, List.take_eq_nil_iff]
            push_neg
            exact ⟨by omega, h⟩
          · simp [List.length_take]
        · exact ihm b hb

/-- When every per-batch fetch succeeds, the batched run returns the
concatenation of the per-batch results in order. -/
theorem runBatches_ok (f : List String → List vehicle) (bs : List (List String)) :
    runBatches (fun b => .ok (f b)) bs = .ok (bs.map f).flatten := by
  induction bs with
  | nil => rfl
  | cons b bs ih =>
    simp [runBatches, ih]

/-- C2: for every route-identifier list, the batched fetch of
`GetAllVehicles` issues one call per chunk — exactly `⌈L/10⌉` calls,
each over a consecutive, nonempty batch of at most ten identifiers, the
chunks concatenating back to the input in order — and when every call
succeeds the result is the concatenation of the per-batch vehicle lists
in batch order; for 25 identifiers the three batch sizes are 10, 10, 5. -/
theorem getAllVehicles_batching (f : List String → List vehicle) (ids : List String) :
    getAllVehiclesFrom (fun b => .ok (f b)) ids = .ok ((batches ids).map f).flatten
    ∧ (batches ids).length = (ids.length + 9) / 10
    ∧ (∀ b ∈ batches ids, b ≠ [] ∧ b.length ≤ 10)
    ∧ (batches ids).flatten = ids
    ∧ (batches (List.replicate 25 "8")).map List.length = [10, 10, 5] := by
  obtain ⟨hj, hl, hm⟩ := batches_facts ids.length ids le_rfl
  exact ⟨runBatches_ok f (batches ids), hl, hm, hj, by decide⟩

/-- Concrete instantiation of C2 at 25 copies of route "8" and a fetch
returning one fixed vehicle list per batch. -/
theorem getAllVehicles_batching_witness :
    (batches (List.replicate 25 "8")).length = 3
    ∧ (batches (List.replicate 25 "8")).map List.length = [10, 10, 5] :=
  ⟨by
    have h := (getAllVehicles_batching (fun _ => []) (List.replicate 25 "8")).2.1
    simpa using h,
   (getAllVehicles_batching (fun _ => []) (List.replicate 25 "8")).2.2.2.2⟩

/-- Running the batches fail-fast: if the batch at position `k` fails
while every earlier batch succeeds, the whole run returns exactly that
error (nothing accumulated survives, and the fetch function is never
constrained beyond position `k`). -/
theorem runBatches_error (fetch : List String → Except apiError (List vehicle)) :
    ∀ (bs : List (List String)) (k : Nat) (e : apiError), k < bs.length →
      fetch (bs.getD k []) = .error e →
      (∀ j, j < k → ∃ vs, fetch (bs.getD j []) = .ok vs) →
      runBatches fetch bs = .error e := by
  intro bs
  induction bs with
  | nil =>
    intro k e hk
    simp at hk
  | cons b bs ih =>
    intro k e hk hfail hok
    cases k with
    | zero =>
      simp only [List.getD_cons_zero] at hfail
      simp [runBatches, hfail]
    | succ k =>
      obtain ⟨vs, h0⟩ := hok 0 (Nat.succ_pos k)
      simp only [List.getD_cons_zero] at h0
      simp only [List.getD_cons_succ] at hfail
      have hrest : runBatches fetch bs = .error e := by
        refine ih k e (by simpa using hk) hfail ?_
        intro j hj
        have := hok (j + 1) (by omega)
        simpa using this
      simp [runBatches, h0, hrest]

/-- C6: if the vehicle fetch of the batch at position `k` fails while
every earlier batch succeeds, `GetAllVehicles` returns that error and no
vehicle list: the earlier batches' vehicles are discarded, no later
batch matters to the result, and no partial result accompanies the
error. -/
theorem getAllVehicles_failFast (fetch : List String → Except apiError (List vehicle))
    (ids : List String) (k : Nat) (e : apiError)
    (hk : k < (batches ids).length)
    (hfail : fetch ((batches ids).getD k []) = .error e)
    (hok : ∀ j, j < k → ∃ vs, fetch ((batches ids).getD j []) = .ok vs) :
    getAllVehiclesFrom fetch ids = .error e :=
  runBatches_error fetch (batches ids) k e hk hfail hok

/-- Concrete instantiation of C6: fifteen identifiers, the first batch
of ten succeeds, the trailing batch of five fails, and the aggregate
call returns the failure. -/
theorem getAllVehicles_failFast_witness :
    getAllVehiclesFrom
      (fun b => if b.length = 10 then .ok [] else .error ⟨502, "CTA API returned error"⟩)
      (List.replicate 15 "8") = .error ⟨502, "CTA API returned error"⟩ :=
  getAllVehicles_failFast _ (List.replicate 15 "8") 1 ⟨502, "CTA API returned error"⟩
    (by decide) (by decide)
    (fun j hj => by
      interval_cases j
      exact ⟨[], rfl⟩)

/-- C5 counterexample: the claim says a benign-only error envelope is
silently absorbed at BOTH call sites, but the decoded-response handling
of `GetRoutes` returns a 502 error for EVERY nonempty error array, even
when the single message is the benign "No data found for parameter". -/
theorem getRoutes_benign_error_counterexample :
    getRoutesFromResponse [⟨"No data found for parameter"⟩] [] =
      .error ⟨502, "CTA API returned error"⟩
    ∧ benignMsg ⟨"No data found for parameter"⟩ = true := by
  decide

/-- C5 (amended): only the vehicle call site absorbs benign errors — a
vehicles response with no vehicles and a nonempty, all-benign error
array yields an empty vehicle list with no error — while the route call
site surfaces every nonempty error envelope as a 502 error, benign or
not. -/
theorem benign_absorption_sites (errs : List ctaError) (rts : List ctaRoute)
    (hne : errs ≠ []) (hall : ∀ e ∈ errs, benignMsg e = true) :
    getVehiclesFromResponse errs [] = .ok []
    ∧ getRoutesFromResponse errs rts = .error ⟨502, "CTA API returned error"⟩ := by
  have hnz : errs.length > 0 := List.length_pos.mpr hne
  constructor
  · have hany : isNoDataError errs = true := by
      rcases errs with _ | ⟨e, es⟩
      · exact absurd rfl hne
      · rw [isNoDataError, List.any_cons, hall e (List.mem_cons_self e es)]
        rfl
    simp [getVehiclesFromResponse, hnz, hany]
  · simp [getRoutesFromResponse, hnz]

/-- Concrete instantiation of the amended C5 theorem on a benign
"no service scheduled" envelope. -/
theorem benign_absorption_sites_witness :
    getVehiclesFromResponse [⟨"no service scheduled"⟩] [] = .ok []
    ∧ getRoutesFromResponse [⟨"no service scheduled"⟩] [] =
      .error ⟨502, "CTA API returned error"⟩ :=
  benign_absorption_sites [⟨"no service scheduled"⟩] [] (by decide) (by decide)

/-- Embedded from `service.go` (type `routeStats`): one statistics
record; the Go `int` counters, which only ever grow one by one, are
modelled as `Nat`. -/
structure routeStats where
  RouteNumber : String
  RouteName : String
  NorthEastbound : Nat
  SouthWestbound : Nat
  TotalActive : Nat
deriving DecidableEq

/-- Embedded from `service.go` lines 382-385: the zeroed statistics
record installed for a route. -/
def blankStats (r : route) : routeStats :=
  ⟨r.RouteNumber, r.RouteName, 0, 0, 0⟩

/-- One step of the map-building loop (`service.go` lines 381-386):
`statsMap[r.RouteNumber] = &routeStats{...}` either overwrites the
record already stored under that key or installs a new one. The Go map
is modelled as an association list with pairwise-distinct keys; the
iteration order of a Go map is unspecified, and every claim proved about
the aggregate output is insensitive to the order chosen here. -/
def insertRoute (m : List routeStats) (r : route) : List routeStats :=
  if m.any (fun s => s.RouteNumber == r.RouteNumber) then
    m.map (fun s => if s.RouteNumber == r.RouteNumber then blankStats r else s)
  else
    m ++ [blankStats r]

/-- Embedded from `service.go` lines 380-386: build the statistics map
from the fetched route list. -/
def buildStatsMap (routes : List route) : List routeStats :=
  routes.foldl insertRoute []

/-- Embedded from `service.go` lines 394-399: classify the vehicle's
heading and increment the matching bucket together with the total. -/
def bump (s : routeStats) (v : vehicle) : routeStats :=
  if isNorthOrEastbound v.Heading then
    { s with NorthEastbound := s.NorthEastbound + 1, TotalActive := s.TotalActive + 1 }
  else
    { s with SouthWestbound := s.SouthWestbound + 1, TotalActive := s.TotalActive + 1 }

/-- Embedded from `service.go` lines 389-400 (one loop iteration): look
the vehicle's route up in the map, update its record when found, and
drop the vehicle silently otherwise; since the map's keys are pairwise
distinct, updating every matching entry updates at most one. -/
def applyVehicle (m : List routeStats) (v : vehicle) : List routeStats :=
  m.map (fun s => if s.RouteNumber == v.Route then bump s v else s)

/-- Embedded from `service.go` lines 389-400: fold the per-vehicle
update over the vehicle list. -/
def countVehicles (m : List routeStats) (vs : List vehicle) : List routeStats :=
  vs.foldl applyVehicle m

/-- Embedded from Go's built-in string comparison: bytewise
lexicographic order (UTF-8 byte order coincides with code-point order,
so comparing `Char.toNat` is faithful). -/
def lexLt : List Char → List Char → Bool
  | [], [] => false
  | [], _ :: _ => true
  | _ :: _, [] => false
  | a :: as, b :: bs =>
    if a.toNat < b.toNat then true
    else if b.toNat < a.toNat then false
    else lexLt as bs

/-- Embedded from the `sort.Slice` comparator of `GetRouteStats`
(`service.go` lines 407-415): numeric comparison when both route
numbers parse as integers, bytewise string comparison otherwise. -/
def statsLess (a b : routeStats) : Bool :=
  match atoi a.RouteNumber, atoi b.RouteNumber with
  | some x, some y => decide (x < y)
  | _, _ => lexLt a.RouteNumber.data b.RouteNumber.data

/-- Nonstrict companion of `statsLess`: `a` need not come after `b`. -/
def statsLe (a b : routeStats) : Bool :=
  !statsLess b a

/-- Insertion step of the modelled sort. -/
def insertSorted (s : routeStats) : List routeStats → List routeStats
  | [] => [s]
  | t :: ts => if statsLe s t then s :: t :: ts else t :: insertSorted s ts

/-- Model of `sort.Slice(result, less)` (`service.go` lines 407-415) as
an insertion sort by the same comparator: `sort.Slice` promises some
reordering sorted by `less` (it is unstable, and the pre-sort order of a
Go map is unspecified anyway), so any comparison sort is a faithful
model of the sorted output. -/
def sortStats : List routeStats → List routeStats
  | [] => []
  | s :: ss => insertSorted s (sortStats ss)

/-- Embedded from `service.go` lines 379-418 (`GetRouteStats` after the
two fetches): build the per-route map, count the vehicles into it, and
emit the records sorted by the route-number comparator. -/
def computeStats (routes : List route) (vehicles : List vehicle) : List routeStats :=
  sortStats (countVehicles (buildStatsMap routes) vehicles)

/-- Keys of the modelled statistics map. -/
def statKeys (m : List routeStats) : List String :=
  m.map (fun s => s.RouteNumber)

/-- The lookup test used by `insertRoute` is membership in the keys. -/
theorem any_key_iff (m : List routeStats) (k : String) :
    (m.any (fun s => s.RouteNumber == k) = true) ↔ k ∈ statKeys m := by
  simp [statKeys, List.any_eq_true, List.mem_map]

/-- Overwriting an existing key leaves the key list unchanged. -/
theorem statKeys_insertRoute_of_mem (m : List routeStats) (r : route)
    (h : r.RouteNumber ∈ statKeys m) :
    statKeys (insertRoute m r) = statKeys m := by
  rw [insertRoute, if_pos ((any_key_iff m r.RouteNumber).mpr h)]
  unfold statKeys
  rw [List.map_map]
  apply List.map_congr_left
  intro s _
  simp only [Function.comp_apply]
  split
  · next hk => simp only [blankStats]; exact (beq_iff_eq.mp hk).symm
  · rfl

/-- Installing a fresh key appends it to the key list. -/
theorem statKeys_insertRoute_of_not_mem (m : List routeStats) (r : route)
    (h : r.RouteNumber ∉ statKeys m) :
    statKeys (insertRoute m r) = statKeys m ++ [r.RouteNumber] := by
  rw [insertRoute, if_neg (fun hc => h ((any_key_iff m r.RouteNumber).mp hc))]
  simp [statKeys, blankStats]

/-- Membership in the keys after one insertion. -/
theorem mem_statKeys_insertRoute (m : List routeStats) (r : route) (x : String) :
    x ∈ statKeys (insertRoute m r) ↔ x ∈ statKeys m ∨ x = r.RouteNumber := by
  by_cases h : r.RouteNumber ∈ statKeys m
  · rw [statKeys_insertRoute_of_mem m r h]
    constructor
    · exact Or.inl
    · rintro (hx | rfl)
      · exact hx
      · exact h
  · rw [statKeys_insertRoute_of_not_mem m r h]
    simp

/-- Insertion keeps the keys pairwise distinct. -/
theorem nodup_statKeys_insertRoute (m : List routeStats) (r : route)
    (h : (statKeys m).Nodup) : (statKeys (insertRoute m r)).Nodup := by
  by_cases hm : r.RouteNumber ∈ statKeys m
  · rw [statKeys_insertRoute_of_mem m r hm]
    exact h
  · rw [statKeys_insertRoute_of_not_mem m r hm]
    exact List.Nodup.append h (List.nodup_singleton _) (by simp [List.disjoint_singleton, hm])

/-- Folding insertions keeps the keys pairwise distinct. -/
theorem nodup_statKeys_buildFrom :
    ∀ (rs : List route) (m : List routeStats), (statKeys m).Nodup →
      (statKeys (rs.foldl insertRoute m)).Nodup := by
  intro rs
  induction rs with
  | nil => exact fun m h => h
  | cons r rs ih => exact fun m h => ih _ (nodup_statKeys_insertRoute m r h)

/-- Keys accumulated by folding insertions. -/
theorem mem_statKeys_buildFrom :
    ∀ (rs : List route) (m : List routeStats) (x : String),
      x ∈ statKeys (rs.foldl insertRoute m)
        ↔ x ∈ statKeys m ∨ x ∈ rs.map (fun r => r.RouteNumber) := by
  intro rs
  induction rs with
  | nil => simp
  | cons r rs ih =>
    intro m x
    rw [List.foldl_cons, ih, mem_statKeys_insertRoute]
    simp only [List.map_cons, List.mem_cons]
    tauto

/-- With pairwise-distinct incoming identifiers all disjoint from the
accumulator, each insertion adds exactly one record. -/
theorem length_buildFrom :
    ∀ (rs : List route) (m : List routeStats),
      (∀ r ∈ rs, r.RouteNumber ∉ statKeys m) →
      (rs.map (fun r => r.RouteNumber)).Nodup →
      (rs.foldl insertRoute m).length = m.length + rs.length := by
  intro rs
  induction rs with
  | nil => simp
  | cons r rs ih =>
    intro m hdisj hnd
    have hr : r.RouteNumber ∉ statKeys m := hdisj r (List.mem_cons_self r rs)
    have hkeys := statKeys_insertRoute_of_not_mem m r hr
    have hlen : (insertRoute m r).length = m.length + 1 := by
      rw [insertRoute, if_neg (fun hc => hr ((any_key_iff m r.RouteNumber).mp hc))]
      simp
    rw [List.foldl_cons, ih (insertRoute m r) ?_ (List.nodup_cons.mp (by simpa using hnd)).2,
      hlen]
    · simp only [List.length_cons]
      omega
    · intro r2 hr2
      rw [hkeys]
      simp only [List.mem_append, List.mem_singleton]
      push_neg
      refine ⟨fun hc => hdisj r2 (List.mem_cons_of_mem r hr2) hc, ?_⟩
      have : r.RouteNumber ∉ rs.map (fun r => r.RouteNumber) :=
        (List.nodup_cons.mp (by simpa using hnd)).1
      intro hc
      exact this (hc ▸ List.mem_map_of_mem (fun r => r.RouteNumber) hr2)

/-- The built map has pairwise-distinct keys. -/
theorem nodup_statKeys_build (routes : List route) :
    (statKeys (buildStatsMap routes)).Nodup :=
  nodup_statKeys_buildFrom routes [] (by simp [statKeys])

/-- The built map's keys are exactly the fetched route identifiers. -/
theorem mem_statKeys_build (routes : List route) (x : String) :
    x ∈ statKeys (buildStatsMap routes) ↔ x ∈ routes.map (fun r => r.RouteNumber) := by
  rw [buildStatsMap, mem_statKeys_buildFrom]
  simp [statKeys]

/-- With pairwise-distinct identifiers the built map has one record per
route. -/
theorem length_build_of_nodup (routes : List route)
    (h : (routes.map (fun r => r.RouteNumber)).Nodup) :
    (buildStatsMap routes).length = routes.length := by
  rw [buildStatsMap, length_buildFrom routes [] (by simp [statKeys]) h]
  simp

/-- In general the built map has one record per distinct identifier. -/
theorem length_build_dedup (routes : List route) :
    (buildStatsMap routes).length = ((routes.map (fun r => r.RouteNumber)).dedup).length := by
  have h1 : (statKeys (buildStatsMap routes)).length = (buildStatsMap routes).length := by
    simp [statKeys]
  have hperm : List.Perm (statKeys (buildStatsMap routes))
      ((routes.map (fun r => r.RouteNumber)).dedup) :=
    (List.perm_ext_iff_of_nodup (nodup_statKeys_build routes) (List.nodup_dedup _)).mpr
      (fun a => by rw [List.mem_dedup, mem_statKeys_build])
  rw [← h1, hperm.length_eq]

/-- Identifier and display name of a record (the fields the counting
loop never touches). -/
def keyName (s : routeStats) : String × String :=
  (s.RouteNumber, s.RouteName)

/-- Structural invariant of a record: the total is the sum of the two
buckets. -/
def statOk (s : routeStats) : Prop :=
  s.TotalActive = s.NorthEastbound + s.SouthWestbound

/-- Sum of the `TotalActive` fields over the map. -/
def sumTot (m : List routeStats) : Nat :=
  (m.map (fun s => s.TotalActive)).sum

/-- Bumping a record never changes its identifier. -/
theorem bump_RouteNumber (s : routeStats) (v : vehicle) :
    (bump s v).RouteNumber = s.RouteNumber := by
  unfold bump
  split <;> rfl

/-- Bumping a record never changes its display name. -/
theorem bump_RouteName (s : routeStats) (v : vehicle) :
    (bump s v).RouteName = s.RouteName := by
  unfold bump
  split <;> rfl

/-- Bumping a record adds exactly one to its total. -/
theorem bump_TotalActive (s : routeStats) (v : vehicle) :
    (bump s v).TotalActive = s.TotalActive + 1 := by
  unfold bump
  split <;> rfl

/-- Bumping preserves the bucket-sum invariant: exactly one bucket and
the total rise by one. -/
theorem statOk_bump (s : routeStats) (v : vehicle) (h : statOk s) : statOk (bump s v) := by
  unfold statOk bump at *
  split <;> simp <;> omega

/-- One counting step never changes the key list. -/
theorem statKeys_applyVehicle (m : List routeStats) (v : vehicle) :
    statKeys (applyVehicle m v) = statKeys m := by
  unfold statKeys applyVehicle
  rw [List.map_map]
  apply List.map_congr_left
  intro s _
  simp only [Function.comp_apply]
  split
  · exact bump_RouteNumber s v
  · rfl

/-- One counting step never changes identifiers or display names. -/
theorem keyName_applyVehicle (m : List routeStats) (v : vehicle) :
    (applyVehicle m v).map keyName = m.map keyName := by
  unfold applyVehicle
  rw [List.map_map]
  apply List.map_congr_left
  intro s _
  simp only [Function.comp_apply]
  split
  · unfold keyName
    rw [bump_RouteNumber, bump_RouteName]
  · rfl

/-- A vehicle on an unknown route is dropped: the map is unchanged. -/
theorem applyVehicle_of_not_mem (m : List routeStats) (v : vehicle)
    (h : v.Route ∉ statKeys m) : applyVehicle m v = m := by
  unfold applyVehicle
  have hcong : ∀ s ∈ m, (if s.RouteNumber == v.Route then bump s v else s) = s := by
    intro s hs
    apply if_neg
    simp only [beq_iff_eq]
    intro heq
    exact h (heq ▸ List.mem_map_of_mem (fun s => s.RouteNumber) hs)
  rw [List.map_congr_left hcong]
  simp

/-- One counting step adds one to the total sum exactly when the
vehicle's route is a known key (keys being pairwise distinct, only one
record matches). -/
theorem sumTot_applyVehicle :
    ∀ (m : List routeStats) (v : vehicle), (statKeys m).Nodup →
      sumTot (applyVehicle m v) = sumTot m + (if v.Route ∈ statKeys m then 1 else 0) := by
  intro m v
  induction m with
  | nil => intro _; simp [applyVehicle, sumTot, statKeys]
  | cons s m ih =>
    intro hnd
    have hnd2 : s.RouteNumber ∉ statKeys m ∧ (statKeys m).Nodup := by
      have h := hnd
      rw [show statKeys (s :: m) = s.RouteNumber :: statKeys m from rfl] at h
      exact List.nodup_cons.mp h
    have hstep : applyVehicle (s :: m) v
        = (if s.RouteNumber == v.Route then bump s v else s) :: applyVehicle m v := rfl
    by_cases hk : s.RouteNumber = v.Route
    · have hmem : v.Route ∉ statKeys m := hk ▸ hnd2.1
      have hhead : (if s.RouteNumber == v.Route then bump s v else s) = bump s v :=
        if_pos (beq_iff_eq.mpr hk)
      have hcons : v.Route ∈ statKeys (s :: m) := by
        rw [show statKeys (s :: m) = s.RouteNumber :: statKeys m from rfl]
        exact hk ▸ List.mem_cons_self s.RouteNumber (statKeys m)
      rw [hstep, hhead, applyVehicle_of_not_mem m v hmem, if_pos hcons]
      simp only [sumTot, List.map_cons, List.sum_cons, bump_TotalActive]
      omega
    · have hhead : (if s.RouteNumber == v.Route then bump s v else s) = s :=
        if_neg (by simpa using hk)
      have hcons : (v.Route ∈ statKeys (s :: m)) ↔ v.Route ∈ statKeys m := by
        rw [show statKeys (s :: m) = s.RouteNumber :: statKeys m from rfl]
        constructor
        · intro h
          rcases List.mem_cons.mp h with heq | hm2
          · exact absurd heq.symm hk
          · exact hm2
        · exact List.mem_cons_of_mem _
      rw [hstep, hhead]
      have hrec := ih hnd2.2
      simp only [sumTot, List.map_cons, List.sum_cons]
      simp only [sumTot] at hrec
      rw [hrec]
      by_cases hv : v.Route ∈ statKeys m
      · rw [if_pos (hcons.mpr hv), if_pos hv]
        omega
      · rw [if_neg (fun hc => hv (hcons.mp hc)), if_neg hv]
        omega

/-- Counting never changes the key list. -/
theorem statKeys_countVehicles :
    ∀ (vs : List vehicle) (m : List routeStats),
      statKeys (countVehicles m vs) = statKeys m := by
  intro vs
  induction vs with
  | nil => exact fun m => rfl
  | cons v vs ih =>
    intro m
    show statKeys (countVehicles (applyVehicle m v) vs) = statKeys m
    rw [ih, statKeys_applyVehicle]

/-- Counting never changes identifiers or display names. -/
theorem keyName_countVehicles :
    ∀ (vs : List vehicle) (m : List routeStats),
      (countVehicles m vs).map keyName = m.map keyName := by
  intro vs
  induction vs with
  | nil => exact fun m => rfl
  | cons v vs ih =>
    intro m
    show (countVehicles (applyVehicle m v) vs).map keyName = m.map keyName
    rw [ih, keyName_applyVehicle]

/-- Counting never changes the number of records. -/
theorem length_countVehicles (vs : List vehicle) (m : List routeStats) :
    (countVehicles m vs).length = m.length := by
  have h := congrArg List.length (statKeys_countVehicles vs m)
  simpa [statKeys] using h

/-- Counting preserves the bucket-sum invariant on every record. -/
theorem statOk_countVehicles :
    ∀ (vs : List vehicle) (m : List routeStats), (∀ s ∈ m, statOk s) →
      ∀ s ∈ countVehicles m vs, statOk s := by
  intro vs
  induction vs with
  | nil => exact fun m h => h
  | cons v vs ih =>
    intro m h
    refine ih (applyVehicle m v) ?_
    intro s hs
    obtain ⟨s0, hs0, rfl⟩ := List.mem_map.mp hs
    split
    · exact statOk_bump s0 v (h s0 hs0)
    · exact h s0 hs0

/-- Counting raises the total sum by exactly the number of vehicles
whose route is a known key. -/
theorem sumTot_countVehicles :
    ∀ (vs : List vehicle) (m : List routeStats), (statKeys m).Nodup →
      sumTot (countVehicles m vs)
        = sumTot m + vs.countP (fun v => decide (v.Route ∈ statKeys m)) := by
  intro vs
  induction vs with
  | nil => intro m _; simp [countVehicles]
  | cons v vs ih =>
    intro m hnd
    have hnd2 : (statKeys (applyVehicle m v)).Nodup := by
      rw [statKeys_applyVehicle]
      exact hnd
    show sumTot (countVehicles (applyVehicle m v) vs) = _
    rw [ih (applyVehicle m v) hnd2]
    simp only [statKeys_applyVehicle]
    rw [sumTot_applyVehicle m v hnd, List.countP_cons]
    by_cases hv : v.Route ∈ statKeys m
    · simp [hv]
      omega
    · simp [hv]

/-- Bytewise order: asymmetry. -/
theorem lexLt_asymm : ∀ (x y : List Char), lexLt x y = true → lexLt y x = false := by
  intro x
  induction x with
  | nil =>
    intro y h
    cases y with
    | nil => simp [lexLt] at h
    | cons b bs => simp [lexLt]
  | cons a as ih =>
    intro y h
    cases y with
    | nil => simp [lexLt] at h
    | cons b bs =>
      simp only [lexLt] at h ⊢
      by_cases h1 : a.toNat < b.toNat
      · rw [if_neg (by omega), if_pos h1]
      · by_cases h2 : b.toNat < a.toNat
        · rw [if_neg h1, if_pos h2] at h
          exact absurd h (by simp)
        · rw [if_neg h1, if_neg h2] at h
          rw [if_neg h2, if_neg h1]
          exact ih bs h

/-- Bytewise order: transitivity. -/
theorem lexLt_trans :
    ∀ (x y z : List Char), lexLt x y = true → lexLt y z = true → lexLt x z = true := by
  intro x
  induction x with
  | nil =>
    intro y z hxy hyz
    cases y with
    | nil => simp [lexLt] at hxy
    | cons b bs =>
      cases z with
      | nil => simp [lexLt] at hyz
      | cons c cs => simp [lexLt]
  | cons a as ih =>
    intro y z hxy hyz
    cases y with
    | nil => simp [lexLt] at hxy
    | cons b bs =>
      cases z with
      | nil => simp [lexLt] at hyz
      | cons c cs =>
        simp only [lexLt] at hxy hyz ⊢
        by_cases h1 : a.toNat < b.toNat
        · by_cases h2 : b.toNat < c.toNat
          · rw [if_pos (by omega)]
          · by_cases h3 : c.toNat < b.toNat
            · rw [if_neg h2, if_pos h3] at hyz
              exact absurd hyz (by simp)
            · rw [if_pos (by omega)]
        · by_cases h4 : b.toNat < a.toNat
          · rw [if_neg h1, if_pos h4] at hxy
            exact absurd hxy (by simp)
          · rw [if_neg h1, if_neg h4] at hxy
            by_cases h2 : b.toNat < c.toNat
            · rw [if_pos (by omega)]
            · by_cases h3 : c.toNat < b.toNat
              · rw [if_neg h2, if_pos h3] at hyz
                exact absurd hyz (by simp)
              · rw [if_neg h2, if_neg h3] at hyz
                rw [if_neg (by omega), if_neg (by omega)]
                exact ih bs cs hxy hyz

/-- Bytewise order: two mutually unrelated lists are equal. -/
theorem lexLt_connex :
    ∀ (x y : List Char), lexLt x y = false → lexLt y x = false → x = y := by
  intro x
  induction x with
  | nil =>
    intro y hxy _
    cases y with
    | nil => rfl
    | cons b bs => simp [lexLt] at hxy
  | cons a as ih =>
    intro y hxy hyx
    cases y with
    | nil => simp [lexLt] at hyx
    | cons b bs =>
      simp only [lexLt] at hxy hyx
      by_cases h1 : a.toNat < b.toNat
      · rw [if_pos h1] at hxy
        exact absurd hxy (by simp)
      · by_cases h2 : b.toNat < a.toNat
        · rw [if_pos h2] at hyx
          exact absurd hyx (by simp)
        · rw [if_neg h1, if_neg h2] at hxy
          rw [if_neg h2, if_neg h1] at hyx
          have hab : a = b := by
            have hn : a.toNat = b.toNat := by omega
            have := congrArg Char.ofNat hn
            rwa [Char.ofNat_toNat, Char.ofNat_toNat] at this
          rw [hab, ih bs hxy hyx]

/-- The route-number comparator is asymmetric. -/
theorem statsLess_asymm (a b : routeStats) (h : statsLess a b = true) :
    statsLess b a = false := by
  unfold statsLess at h ⊢
  generalize atoi a.RouteNumber = oa at h ⊢
  generalize atoi b.RouteNumber = ob at h ⊢
  cases oa with
  | none =>
    cases ob with
    | none => exact lexLt_asymm _ _ h
    | some y => exact lexLt_asymm _ _ h
  | some x =>
    cases ob with
    | none => exact lexLt_asymm _ _ h
    | some y =>
      have hxy : x < y := of_decide_eq_true h
      exact decide_eq_false (by omega)

/-- The nonstrict comparator is total. -/
theorem statsLe_total (a b : routeStats) : statsLe a b = true ∨ statsLe b a = true := by
  unfold statsLe
  cases hba : statsLess b a
  · left
    rfl
  · right
    rw [statsLess_asymm b a hba]
    rfl

/-- The nonstrict comparator is transitive over records whose
identifiers all parse as integers. -/
theorem statsLe_trans_parse (a b c : routeStats)
    (ha : (atoi a.RouteNumber).isSome = true) (hb : (atoi b.RouteNumber).isSome = true)
    (hc : (atoi c.RouteNumber).isSome = true)
    (h1 : statsLe a b = true) (h2 : statsLe b c = true) : statsLe a c = true := by
  obtain ⟨x, hx⟩ := Option.isSome_iff_exists.mp ha
  obtain ⟨y, hy⟩ := Option.isSome_iff_exists.mp hb
  obtain ⟨z, hz⟩ := Option.isSome_iff_exists.mp hc
  unfold statsLe statsLess at h1 h2 ⊢
  rw [hy, hx] at h1
  rw [hz, hy] at h2
  rw [hz, hx]
  simp only [Bool.not_eq_true', decide_eq_false_iff_not] at h1 h2 ⊢
  omega

/-- The nonstrict comparator is transitive over records whose
identifiers all fail to parse as integers. -/
theorem statsLe_trans_lex (a b c : routeStats)
    (ha : atoi a.RouteNumber = none) (hb : atoi b.RouteNumber = none)
    (hc : atoi c.RouteNumber = none)
    (h1 : statsLe a b = true) (h2 : statsLe b c = true) : statsLe a c = true := by
  unfold statsLe statsLess at h1 h2 ⊢
  rw [hb, ha] at h1
  rw [hc, hb] at h2
  rw [hc, ha]
  simp only [Bool.not_eq_true'] at h1 h2 ⊢
  by_contra hca
  have hca2 : lexLt c.RouteNumber.data a.RouteNumber.data = true := by
    cases h : lexLt c.RouteNumber.data a.RouteNumber.data
    · exact absurd h hca
    · rfl
  cases hab : lexLt a.RouteNumber.data b.RouteNumber.data
  · have heq := lexLt_connex _ _ hab h1
    rw [heq] at hca2
    rw [hca2] at h2
    exact Bool.noConfusion h2
  · have hcb := lexLt_trans _ _ _ hca2 hab
    rw [hcb] at h2
    exact Bool.noConfusion h2

/-- Inserting into the sorted prefix is a permutation of consing. -/
theorem perm_insertSorted (s : routeStats) :
    ∀ (l : List routeStats), List.Perm (insertSorted s l) (s :: l) := by
  intro l
  induction l with
  | nil => exact List.Perm.refl _
  | cons t ts ih =>
    unfold insertSorted
    split
    · exact List.Perm.refl _
    · exact (ih.cons t).trans (List.Perm.swap s t ts)

/-- The modelled sort permutes its input. -/
theorem perm_sortStats : ∀ (l : List routeStats), List.Perm (sortStats l) l := by
  intro l
  induction l with
  | nil => exact List.Perm.refl _
  | cons s ss ih =>
    exact (perm_insertSorted s (sortStats ss)).trans (ih.cons s)

/-- Inserting below a sorted list keeps it sorted, assuming the
comparator is transitive on the elements involved. -/
theorem pairwise_insertSorted :
    ∀ (l : List routeStats) (s : routeStats),
      (∀ a ∈ s :: l, ∀ b ∈ s :: l, ∀ c ∈ s :: l,
        statsLe a b = true → statsLe b c = true → statsLe a c = true) →
      l.Pairwise (fun a b => statsLe a b = true) →
      (insertSorted s l).Pairwise (fun a b => statsLe a b = true) := by
  intro l
  induction l with
  | nil =>
    intro s _ _
    simp [insertSorted]
  | cons t ts ih =>
    intro s htrans hp
    have hp2 := List.pairwise_cons.mp hp
    unfold insertSorted
    by_cases hst : statsLe s t = true
    · rw [if_pos hst]
      refine List.pairwise_cons.mpr ⟨?_, hp⟩
      intro x hx
      rcases List.mem_cons.mp hx with rfl | hxts
      · exact hst
      · exact htrans s (by simp) t (by simp) x (by simp [hxts]) hst (hp2.1 x hxts)
    · rw [if_neg hst]
      have hts : statsLe t s = true := (statsLe_total s t).resolve_left hst
      refine List.pairwise_cons.mpr ⟨?_, ?_⟩
      · intro x hx
        rcases List.mem_cons.mp ((perm_insertSorted s ts).mem_iff.mp hx) with rfl | hxts
        · exact hts
        · exact hp2.1 x hxts
      · refine ih s ?_ hp2.2
        intro a ha b hb c hc
        have sub : ∀ y, y ∈ s :: ts → y ∈ s :: t :: ts := by
          intro y hy
          rcases List.mem_cons.mp hy with rfl | hyts
          · exact List.mem_cons_self _ _
          · exact List.mem_cons_of_mem _ (List.mem_cons_of_mem _ hyts)
        exact htrans a (sub a ha) b (sub b hb) c (sub c hc)

/-- The modelled sort produces a list sorted by the nonstrict
comparator, assuming the comparator is transitive on the elements of the
input. -/
theorem pairwise_sortStats :
    ∀ (l : List routeStats),
      (∀ a ∈ l, ∀ b ∈ l, ∀ c ∈ l,
        statsLe a b = true → statsLe b c = true → statsLe a c = true) →
      (sortStats l).Pairwise (fun a b => statsLe a b = true) := by
  intro l
  induction l with
  | nil =>
    intro _
    simp [sortStats]
  | cons s ss ih =>
    intro htrans
    show (insertSorted s (sortStats ss)).Pairwise _
    have sub : ∀ y, y ∈ s :: sortStats ss → y ∈ s :: ss := by
      intro y hy
      rcases List.mem_cons.mp hy with rfl | hys
      · exact List.mem_cons_self _ _
      · exact List.mem_cons_of_mem _ ((perm_sortStats ss).mem_iff.mp hys)
    refine pairwise_insertSorted (sortStats ss) s ?_ (ih ?_)
    · intro a ha b hb c hc
      exact htrans a (sub a ha) b (sub b hb) c (sub c hc)
    · intro a ha b hb c hc
      exact htrans a (List.mem_cons_of_mem _ ha) b (List.mem_cons_of_mem _ hb)
        c (List.mem_cons_of_mem _ hc)

/-- Any property of records holding for fresh blanks survives one
insertion. -/
theorem insertRoute_pres (P : routeStats → Prop) (hblank : ∀ r : route, P (blankStats r)) :
    ∀ (m : List routeStats) (r : route), (∀ s ∈ m, P s) → ∀ s ∈ insertRoute m r, P s := by
  intro m r hm s hs
  unfold insertRoute at hs
  split at hs
  · obtain ⟨s0, hs0, rfl⟩ := List.mem_map.mp hs
    split
    · exact hblank r
    · exact hm s0 hs0
  · rcases List.mem_append.mp hs with h1 | h1
    · exact hm s h1
    · rw [List.mem_singleton.mp h1]
      exact hblank r

/-- Any property of records holding for fresh blanks holds on the whole
built map. -/
theorem build_pres (P : routeStats → Prop) (hblank : ∀ r : route, P (blankStats r)) :
    ∀ (rs : List route) (m : List routeStats), (∀ s ∈ m, P s) →
      ∀ s ∈ rs.foldl insertRoute m, P s := by
  intro rs
  induction rs with
  | nil => exact fun m hm => hm
  | cons r rs ih => exact fun m hm => ih (insertRoute m r) (insertRoute_pres P hblank m r hm)

/-- A map of all-zero totals sums to zero. -/
theorem sumTot_eq_zero : ∀ (m : List routeStats), (∀ s ∈ m, s.TotalActive = 0) → sumTot m = 0 := by
  intro m
  induction m with
  | nil => intro _; rfl
  | cons s m ih =>
    intro h
    have h1 := h s (List.mem_cons_self s m)
    have h2 := ih (fun x hx => h x (List.mem_cons_of_mem s hx))
    simp only [sumTot, List.map_cons, List.sum_cons] at h2 ⊢
    omega

/-- C3 counterexample: the claim promises exactly `len(R)` statistics
records for EVERY route list, but two route entries sharing the
identifier "1" collapse into a single record. -/
theorem routeStats_len_counterexample :
    ¬ ((computeStats [⟨"1", "A", "", ""⟩, ⟨"1", "B", "", ""⟩] []).length
        = ([⟨"1", "A", "", ""⟩, ⟨"1", "B", "", ""⟩] : List route).length) := by
  decide

/-- C3 (amended): for every route list R with pairwise-distinct route
identifiers and every vehicle list V, `computeStats` yields exactly
`len(R)` records, each record's total is the sum of its two buckets, and
the totals sum to the number of vehicles of V whose route identifier
equals some route of R — vehicles on unknown routes are dropped without
any error. -/
theorem routeStats_counts (routes : List route) (vehicles : List vehicle)
    (hnd : (routes.map (fun r => r.RouteNumber)).Nodup) :
    (computeStats routes vehicles).length = routes.length
    ∧ (∀ s ∈ computeStats routes vehicles,
        s.TotalActive = s.NorthEastbound + s.SouthWestbound)
    ∧ ((computeStats routes vehicles).map (fun s => s.TotalActive)).sum
        = vehicles.countP (fun v => routes.any (fun r => r.RouteNumber == v.Route)) := by
  refine ⟨?_, ?_, ?_⟩
  · rw [computeStats, (perm_sortStats _).length_eq, length_countVehicles,
      length_build_of_nodup routes hnd]
  · intro s hs
    rw [computeStats] at hs
    have hs2 := (perm_sortStats _).mem_iff.mp hs
    exact statOk_countVehicles vehicles (buildStatsMap routes)
      (build_pres statOk (fun r => by simp [statOk, blankStats]) routes [] (by simp))
      s hs2
  · rw [computeStats]
    have h1 : ((sortStats (countVehicles (buildStatsMap routes) vehicles)).map
          (fun s => s.TotalActive)).sum
        = ((countVehicles (buildStatsMap routes) vehicles).map (fun s => s.TotalActive)).sum :=
      (List.Perm.map (fun s => s.TotalActive) (perm_sortStats _)).sum_eq
    have h2 := sumTot_countVehicles vehicles (buildStatsMap routes) (nodup_statKeys_build routes)
    have h3 : sumTot (buildStatsMap routes) = 0 :=
      sumTot_eq_zero _ (build_pres (fun s => s.TotalActive = 0) (fun r => rfl) routes [] (by simp))
    have h4 : vehicles.countP (fun v => decide (v.Route ∈ statKeys (buildStatsMap routes)))
        = vehicles.countP (fun v => routes.any (fun r => r.RouteNumber == v.Route)) := by
      apply List.countP_congr
      intro v _
      simp [mem_statKeys_build, List.any_eq_true, List.mem_map, beq_iff_eq]
    unfold sumTot at h2 h3
    rw [h1, h2, h3, h4]
    omega

/-- Concrete instantiation of the amended C3 theorem on the spec's
end-to-end scenario: route "8", one vehicle heading 90, one heading 270
and a stray vehicle on unknown route "99". -/
theorem routeStats_counts_witness :
    (computeStats [⟨"8", "Halsted", "", ""⟩]
        [⟨"4001", "", "", "", "90", "", "", "8", "", false, "", "", "", ""⟩,
         ⟨"4002", "", "", "", "270", "", "", "8", "", false, "", "", "", ""⟩,
         ⟨"4003", "", "", "", "90", "", "", "99", "", false, "", "", "", ""⟩]).length
      = ([⟨"8", "Halsted", "", ""⟩] : List route).length
    ∧ (∀ s ∈ computeStats [⟨"8", "Halsted", "", ""⟩]
        [⟨"4001", "", "", "", "90", "", "", "8", "", false, "", "", "", ""⟩,
         ⟨"4002", "", "", "", "270", "", "", "8", "", false, "", "", "", ""⟩,
         ⟨"4003", "", "", "", "90", "", "", "99", "", false, "", "", "", ""⟩],
        s.TotalActive = s.NorthEastbound + s.SouthWestbound)
    ∧ ((computeStats [⟨"8", "Halsted", "", ""⟩]
        [⟨"4001", "", "", "", "90", "", "", "8", "", false, "", "", "", ""⟩,
         ⟨"4002", "", "", "", "270", "", "", "8", "", false, "", "", "", ""⟩,
         ⟨"4003", "", "", "", "90", "", "", "99", "", false, "", "", "", ""⟩]).map
          (fun s => s.TotalActive)).sum
      = ([⟨"4001", "", "", "", "90", "", "", "8", "", false, "", "", "", ""⟩,
         ⟨"4002", "", "", "", "270", "", "", "8", "", false, "", "", "", ""⟩,
         ⟨"4003", "", "", "", "90", "", "", "99", "", false, "", "", "", ""⟩] : List vehicle).countP
          (fun v => [(⟨"8", "Halsted", "", ""⟩ : route)].any
            (fun r => r.RouteNumber == v.Route)) :=
  routeStats_counts [⟨"8", "Halsted", "", ""⟩]
    [⟨"4001", "", "", "", "90", "", "", "8", "", false, "", "", "", ""⟩,
     ⟨"4002", "", "", "", "270", "", "", "8", "", false, "", "", "", ""⟩,
     ⟨"4003", "", "", "", "90", "", "", "99", "", false, "", "", "", ""⟩]
    (by decide)

/-- Every record of the built map takes its display name from the LAST
route entry carrying its identifier (later insertions overwrite). -/
theorem build_lastName :
    ∀ (routes : List route), ∀ s ∈ buildStatsMap routes,
      ((routes.reverse.find? (fun r => r.RouteNumber == s.RouteNumber)).map
        (fun r => r.RouteName)) = some s.RouteName := by
  intro routes
  induction routes using List.reverseRecOn with
  | nil =>
    intro s hs
    simp [buildStatsMap] at hs
  | append_singleton l r ih =>
    intro s hs
    rw [buildStatsMap, List.foldl_append, List.foldl_cons, List.foldl_nil] at hs
    rw [List.reverse_append, List.reverse_singleton, List.singleton_append]
    unfold insertRoute at hs
    split at hs
    · next hany =>
      obtain ⟨s0, hs0, rfl⟩ := List.mem_map.mp hs
      by_cases hk : (s0.RouteNumber == r.RouteNumber) = true
      · rw [if_pos hk]
        have hfind : List.find? (fun r2 => r2.RouteNumber == (blankStats r).RouteNumber)
            (r :: l.reverse) = some r :=
          List.find?_cons_of_pos _ (by simp [blankStats])
        rw [hfind]
        simp [blankStats]
      · rw [if_neg hk]
        have hne : ¬ ((fun r2 => r2.RouteNumber == s0.RouteNumber) r) = true := by
          simp only [beq_iff_eq] at hk ⊢
          exact fun he => hk he.symm
        have hfind : List.find? (fun r2 => r2.RouteNumber == s0.RouteNumber)
            (r :: l.reverse)
            = List.find? (fun r2 => r2.RouteNumber == s0.RouteNumber) l.reverse :=
          List.find?_cons_of_neg _ hne
        rw [hfind]
        exact ih s0 hs0
    · next hany =>
      rcases List.mem_append.mp hs with h1 | h1
      · have hne : ¬ ((fun r2 => r2.RouteNumber == s.RouteNumber) r) = true := by
          intro hc
          refine hany (List.any_eq_true.mpr ⟨s, h1, ?_⟩)
          simp only [beq_iff_eq] at hc ⊢
          exact hc.symm
        have hfind : List.find? (fun r2 => r2.RouteNumber == s.RouteNumber)
            (r :: l.reverse)
            = List.find? (fun r2 => r2.RouteNumber == s.RouteNumber) l.reverse :=
          List.find?_cons_of_neg _ hne
        rw [hfind]
        exact ih s h1
      · rw [List.mem_singleton.mp h1]
        have hfind : List.find? (fun r2 => r2.RouteNumber == (blankStats r).RouteNumber)
            (r :: l.reverse) = some r :=
          List.find?_cons_of_pos _ (by simp [blankStats])
        rw [hfind]
        simp [blankStats]

/-- Counting changes no identifier or display name: every counted record
descends from a built record with the same key and name. -/
theorem names_countVehicles (m : List routeStats) (vs : List vehicle) :
    ∀ s ∈ countVehicles m vs,
      ∃ s0 ∈ m, s0.RouteNumber = s.RouteNumber ∧ s0.RouteName = s.RouteName := by
  intro s hs
  have hmem : keyName s ∈ (countVehicles m vs).map keyName :=
    List.mem_map_of_mem keyName hs
  rw [keyName_countVehicles] at hmem
  obtain ⟨s0, hs0, heq⟩ := List.mem_map.mp hmem
  unfold keyName at heq
  exact ⟨s0, hs0, congrArg Prod.fst heq, congrArg Prod.snd heq⟩

/-- C10: `GetRouteStats` emits exactly one record per DISTINCT route
identifier — duplicate route entries collapse — and each record's
display name comes from the last route entry bearing its identifier. -/
theorem routeStats_collapse (routes : List route) (vehicles : List vehicle) :
    (computeStats routes vehicles).length
      = ((routes.map (fun r => r.RouteNumber)).dedup).length
    ∧ ∀ s ∈ computeStats routes vehicles,
        ((routes.reverse.find? (fun r => r.RouteNumber == s.RouteNumber)).map
          (fun r => r.RouteName)) = some s.RouteName := by
  constructor
  · rw [computeStats, (perm_sortStats _).length_eq, length_countVehicles,
      length_build_dedup]
  · intro s hs
    rw [computeStats] at hs
    have hs2 := (perm_sortStats _).mem_iff.mp hs
    obtain ⟨s0, hs0, hkey, hname⟩ := names_countVehicles (buildStatsMap routes) vehicles s hs2
    have hlast := build_lastName routes s0 hs0
    rw [hkey, hname] at hlast
    exact hlast

/-- Concrete instantiation of C10: two entries for route "5" collapse
into one record named after the second entry. -/
theorem routeStats_collapse_witness :
    (computeStats [⟨"5", "First", "", ""⟩, ⟨"5", "Second", "", ""⟩] []).length
      = ((([⟨"5", "First", "", ""⟩, ⟨"5", "Second", "", ""⟩] : List route).map
          (fun r => r.RouteNumber)).dedup).length
    ∧ ∀ s ∈ computeStats [⟨"5", "First", "", ""⟩, ⟨"5", "Second", "", ""⟩] [],
        ((([⟨"5", "First", "", ""⟩, ⟨"5", "Second", "", ""⟩] : List route).reverse.find?
          (fun r => r.RouteNumber == s.RouteNumber)).map (fun r => r.RouteName))
          = some s.RouteName :=
  routeStats_collapse [⟨"5", "First", "", ""⟩, ⟨"5", "Second", "", ""⟩] []

/-- C7 counterexample: on the mixed identifier set "2", "10", "1a" the
comparator cycles ("2" < "10" numerically, "10" < "1a" lexically,
"1a" < "2" lexically), so NO ordering of the three emitted records —
including the one the code produces — satisfies the claimed sortedness. -/
theorem routeStats_sorted_counterexample :
    ¬ ((computeStats [⟨"2", "A", "", ""⟩, ⟨"10", "B", "", ""⟩, ⟨"1a", "C", "", ""⟩] []).Pairwise
        (fun a b => statsLess b a = false)) := by
  decide

/-- C7 (amended): the emitted records are sorted by the comparator —
no record preceded by one the comparator places after it — whenever the
route identifiers are comparator-consistent, in particular whenever all
of them parse as integers or none of them does; for mixed sets the
comparator can be cyclic and sortedness can fail. -/
theorem routeStats_sorted (routes : List route) (vehicles : List vehicle)
    (h : (∀ r ∈ routes, (atoi r.RouteNumber).isSome = true)
      ∨ (∀ r ∈ routes, atoi r.RouteNumber = none)) :
    (computeStats routes vehicles).Pairwise (fun a b => statsLess b a = false) := by
  have hkey : ∀ s ∈ countVehicles (buildStatsMap routes) vehicles,
      ∃ r ∈ routes, r.RouteNumber = s.RouteNumber := by
    intro s hs
    have hmem : s.RouteNumber ∈ statKeys (countVehicles (buildStatsMap routes) vehicles) :=
      List.mem_map_of_mem (fun s => s.RouteNumber) hs
    rw [statKeys_countVehicles, mem_statKeys_build] at hmem
    exact List.mem_map.mp hmem
  have htrans : ∀ a ∈ countVehicles (buildStatsMap routes) vehicles,
      ∀ b ∈ countVehicles (buildStatsMap routes) vehicles,
      ∀ c ∈ countVehicles (buildStatsMap routes) vehicles,
      statsLe a b = true → statsLe b c = true → statsLe a c = true := by
    intro a ha b hb c hc h1 h2
    obtain ⟨ra, hra, hrae⟩ := hkey a ha
    obtain ⟨rb, hrb, hrbe⟩ := hkey b hb
    obtain ⟨rc, hrc, hrce⟩ := hkey c hc
    rcases h with hall | hnone
    · exact statsLe_trans_parse a b c (hrae ▸ hall ra hra) (hrbe ▸ hall rb hrb)
        (hrce ▸ hall rc hrc) h1 h2
    · exact statsLe_trans_lex a b c (hrae ▸ hnone ra hra) (hrbe ▸ hnone rb hrb)
        (hrce ▸ hnone rc hrc) h1 h2
  have hp := pairwise_sortStats (countVehicles (buildStatsMap routes) vehicles) htrans
  refine hp.imp ?_
  intro a b hab
  unfold statsLe at hab
  simpa using hab

/-- Concrete instantiation of the amended C7 theorem: numeric
identifiers "9" and "22" yield records sorted with "9" first. -/
theorem routeStats_sorted_witness :
    (∀ r ∈ ([⟨"9", "Ashland", "", ""⟩, ⟨"22", "Clark", "", ""⟩] : List route),
      (atoi r.RouteNumber).isSome = true)
    ∧ (computeStats [⟨"9", "Ashland", "", ""⟩, ⟨"22", "Clark", "", ""⟩] []).Pairwise
        (fun a b => statsLess b a = false) :=
  ⟨by decide,
   routeStats_sorted [⟨"9", "Ashland", "", ""⟩, ⟨"22", "Clark", "", ""⟩] []
     (Or.inl (by decide))⟩

/-- Embedded from `service.go` lines 177-232 in the state-passing shape
the aggregate endpoints observe: `env n` is the decoded outcome of the
(n+1)-th upstream route-list call of the request, and every `GetRoutes`
invocation consumes the next outcome and advances the counter. -/
def getRoutesAt (env : Nat → Except apiError (List route)) (n : Nat) :
    Except apiError (List route × Nat) :=
  match env n with
  | .error e => .error e
  | .ok rs => .ok (rs, n + 1)

/-- Embedded from `service.go` lines 234-264 (`GetAllVehicles`): fetch
the route list (one upstream route-list call), project the identifiers,
and run the batched vehicle fetch over them. -/
def getAllVehiclesAt (env : Nat → Except apiError (List route))
    (fetchVehicles : List String → Except apiError (List vehicle)) (n : Nat) :
    Except apiError (List vehicle × Nat) :=
  match getRoutesAt env n with
  | .error e => .error e
  | .ok (rs, n1) =>
    match getAllVehiclesFrom fetchVehicles (rs.map (fun r => r.RouteNumber)) with
    | .error e => .error e
    | .ok vs => .ok (vs, n1)

/-- Embedded from `service.go` lines 366-419 (`GetRouteStats`): fetch
the route list, then fetch all vehicles — which itself fetches the
route list again — and aggregate the first fetch's routes with the
vehicles. -/
def getRouteStatsAt (env : Nat → Except apiError (List route))
    (fetchVehicles : List String → Except apiError (List vehicle)) (n : Nat) :
    Except apiError (List routeStats × Nat) :=
  match getRoutesAt env n with
  | .error e => .error e
  | .ok (rs, n1) =>
    match getAllVehiclesAt env fetchVehicles n1 with
    | .error e => .error e
    | .ok (vs, n2) => .ok (computeStats rs vs, n2)

/-- C9: a `GetRouteStats` request performs the upstream route-list fetch
twice — the final counter is 2 — keying the statistics records by the
FIRST fetch's routes while batching the vehicle fetch over the SECOND
fetch's route identifiers. -/
theorem getRouteStats_two_fetches (env : Nat → Except apiError (List route))
    (fetchVehicles : List String → Except apiError (List vehicle))
    (R1 R2 : List route) (h0 : env 0 = .ok R1) (h1 : env 1 = .ok R2) :
    getRouteStatsAt env fetchVehicles 0
      = (getAllVehiclesFrom fetchVehicles (R2.map (fun r => r.RouteNumber))).map
          (fun vs => (computeStats R1 vs, 2)) := by
  cases hveh : getAllVehiclesFrom fetchVehicles (R2.map (fun r => r.RouteNumber)) with
  | error e =>
    simp [getRouteStatsAt, getAllVehiclesAt, getRoutesAt, h0, h1, hveh, Except.map]
  | ok vs =>
    simp [getRouteStatsAt, getAllVehiclesAt, getRoutesAt, h0, h1, hveh, Except.map]

/-- Concrete instantiation of C9: the first fetch returns route "5", the
second returns route "7"; the emitted record is keyed by "5" (first
fetch), the counter ends at 2, and the batched fetch ran over "7". -/
theorem getRouteStats_two_fetches_witness :
    getRouteStatsAt
        (fun n => if n = 0 then .ok [⟨"5", "First", "", ""⟩] else .ok [⟨"7", "Second", "", ""⟩])
        (fun _ => .ok []) 0
      = .ok ([⟨"5", "First", 0, 0, 0⟩], 2) := by
  rw [getRouteStats_two_fetches
    (fun n => if n = 0 then .ok [⟨"5", "First", "", ""⟩] else .ok [⟨"7", "Second", "", ""⟩])
    (fun _ => .ok []) [⟨"5", "First", "", ""⟩] [⟨"7", "Second", "", ""⟩] rfl rfl]
  decide
